import Mathlib

/-!
Shallow embedding of the Pico W gate controller (src/main.py, v2.4p, and
src/garagedoor2.7.py, v2.7) for checking the natural-language specification.

Modelling conventions:
* MicroPython globals become explicit state records or function arguments.
* The cooperative `uasyncio` scheduler never preempts between two statements
  without an `await`, so each run of straight-line code between suspension
  points is modelled as one atomic Lean function.
* `time.time()` is an `Int` (seconds); `time.ticks_ms` is a `Nat` assumed
  monotonic (tick wraparound via `ticks_diff` is not modelled).
* Cloud traffic (`blynk.virtual_write`, `blynk.log_event`) is modelled as an
  emitted message list.
-/

namespace GateCtl

/-- Constant `BLINK_OFFLINE_TIMEOUT = 300` (src/main.py line 30). -/
def BLINK_OFFLINE_TIMEOUT : Int := 300

/-- Constant `DEBOUNCE_MS = 250` (src/main.py line 264). -/
def DEBOUNCE_MS : Nat := 250

/-- A cloud-bound message: `virtual_write pin value` or `log_event name`. -/
inductive CloudMsg where
  | vw (pin : Nat) (value : Nat)
  | ev (name : String)
  deriving DecidableEq, Repr

/-! ### ActuatorControl: `trigger_gate` (src/main.py lines 76-101) -/

/-- Device state touched by `trigger_gate` and the surrounding runtime.
`pending` holds the completion deadlines (in seconds) of pulses that have been
started (relay asserted) but whose `await asyncio.sleep(RELAY_DURATION)` has
not yet resumed; the source keeps this implicitly in the suspended coroutine. -/
structure GateSys where
  now : Nat
  relay : Bool
  relay_active : Bool
  led : Bool
  pending : List Nat
  log : List CloudMsg
  deriving Repr

def gateInit : GateSys :=
  { now := 0, relay := false, relay_active := false, led := false,
    pending := [], log := [] }

/-- First half of `trigger_gate`, up to the `await asyncio.sleep`:
the re-entrancy guard, then `relay.value(1)`, `relay_active = True`,
`led.value(1)`, `blynk.virtual_write(13, 1)`. Returns the new state and
whether the call was accepted (not rejected by the guard). -/
def triggerStart (RELAY_DURATION : Nat) (blynkPresent : Bool) (s : GateSys) :
    GateSys × Bool :=
  if s.relay_active then (s, false)
  else
    ({ s with
       relay := true,
       relay_active := true,
       led := true,
       pending := s.pending ++ [s.now + RELAY_DURATION],
       log := s.log ++ (if blynkPresent then [CloudMsg.vw 13 1] else []) },
     true)

/-- Second half of `trigger_gate`, after the sleep resumes:
`relay.value(0)`, `relay_active = False`, `blynk.virtual_write(13, 0)`. -/
def triggerFinish (blynkPresent : Bool) (s : GateSys) : GateSys :=
  { s with
    relay := false,
    relay_active := false,
    log := s.log ++ (if blynkPresent then [CloudMsg.vw 13 0] else []) }

/-- Runtime actions: an external `trigger_gate()` call, or one second of time
passing (during which the scheduler resumes any sleep whose deadline arrived,
running the second half of `trigger_gate`). -/
inductive GateAct where
  | trigger
  | tick
  deriving DecidableEq, Repr

def gateStep (RELAY_DURATION : Nat) (blynkPresent : Bool) (s : GateSys) :
    GateAct → GateSys
  | .trigger => (triggerStart RELAY_DURATION blynkPresent s).1
  | .tick =>
      let t := s.now + 1
      let due := s.pending.filter (fun d => d ≤ t)
      let rest := s.pending.filter (fun d => ¬ d ≤ t)
      let s' := due.foldl (fun acc _ => triggerFinish blynkPresent acc)
        { s with now := t, pending := rest }
      s'

def gateRun (RELAY_DURATION : Nat) (blynkPresent : Bool) (acts : List GateAct) :
    GateSys :=
  acts.foldl (gateStep RELAY_DURATION blynkPresent) gateInit

/-- The inductive invariant of the actuator: the relay output mirrors
`relay_active`, there is an in-flight pulse exactly when `relay_active`, and
every in-flight pulse's deadline is still in the future. -/
def GateInv (s : GateSys) : Prop :=
  s.relay = s.relay_active ∧
  s.pending.length = (if s.relay_active then 1 else 0) ∧
  ∀ d ∈ s.pending, s.now < d

/-! ### LivenessWatchdog: `blynk_watchdog_loop` (src/main.py lines 192-198) -/

/-- One watchdog check: restart exactly when
`time.time() - blynk_last_seen > BLINK_OFFLINE_TIMEOUT`. -/
def watchdogRestart (now blynk_last_seen : Int) : Bool :=
  decide (now - blynk_last_seen > BLINK_OFFLINE_TIMEOUT)

/-- Events affecting `blynk_last_seen` and the watchdog, each time-stamped with
`time.time()`: a successful `blynk.run()` pump (line 168-169), a successful
inline `blynk.connect()` reconnect (lines 174-176), and a watchdog check
(line 195). -/
inductive WdEv where
  | pumpOk (t : Int)
  | reconnectOk (t : Int)
  | check (t : Int)
  deriving DecidableEq, Repr

/-- Watchdog-relevant state: the `blynk_last_seen` global and whether
`machine.reset()` has been invoked. -/
structure WdState where
  blynk_last_seen : Int
  restarted : Bool
  deriving DecidableEq, Repr

def wdStep (s : WdState) : WdEv → WdState
  | .pumpOk t => { s with blynk_last_seen := t }
  | .reconnectOk t => { s with blynk_last_seen := t }
  | .check t =>
      if watchdogRestart t s.blynk_last_seen then { s with restarted := true }
      else s

/-- Run the watchdog-relevant event stream from boot: `blynk_last_seen` is
seeded with the boot time (src/main.py line 29). -/
def wdRun (bootTime : Int) (evs : List WdEv) : WdState :=
  evs.foldl wdStep { blynk_last_seen := bootTime, restarted := false }

/-! ### SensorMonitor: `reed_status_loop` (src/main.py lines 261-288) -/

/-- Local state of `reed_status_loop`: `last_state` (starts `None`) and
`last_change_time` (starts `0`, in ms of `time.ticks_ms`). -/
structure ReedState where
  last_state : Option Bool
  last_change_time : Nat
  deriving DecidableEq, Repr

def reedInit : ReedState := ⟨none, 0⟩

/-- The acceptance test of one poll:
`state != last_state and time.ticks_diff(now, last_change_time) > DEBOUNCE_MS`.
`ticks_diff` is modelled as truncated `Nat` subtraction (monotonic clock). -/
def reedAccept (s : ReedState) (state : Bool) (now : Nat) : Bool :=
  decide (some state ≠ s.last_state) && decide (now - s.last_change_time > DEBOUNCE_MS)

/-- One poll of `reed_status_loop`: on acceptance, emit the SensorEvent
(`virtual_write(14, _)` plus the paired `log_event`) and update both fields;
otherwise leave everything unchanged. The emitted event is recorded as the
pair (debounced state, timestamp). -/
def reedPoll (s : ReedState) (state : Bool) (now : Nat) :
    ReedState × List (Bool × Nat) :=
  if reedAccept s state now then (⟨some state, now⟩, [(state, now)])
  else (s, [])

/-- Run the loop over a poll trace of (raw reading, `ticks_ms` timestamp)
pairs, collecting emitted SensorEvents in order. -/
def reedRun (s : ReedState) : List (Bool × Nat) → ReedState × List (Bool × Nat)
  | [] => (s, [])
  | (state, now) :: rest =>
      let p := reedPoll s state now
      let r := reedRun p.1 rest
      (r.1, p.2 ++ r.2)

/-- The cloud messages sent for one accepted sensor event (src/main.py lines
274-280): `virtual_write(14, 1|0)` then `log_event("garage_open"|"garage_closed")`. -/
def reedMsgs (state : Bool) : List CloudMsg :=
  [CloudMsg.vw 14 (if state then 1 else 0),
   CloudMsg.ev (if state then "garage_open" else "garage_closed")]

/-! ### v2.7 sensor publishing: `blynk_update_loop` (src/garagedoor2.7.py
lines 143-165), change-only `last_reed_state` tracking. -/

/-- One successful pump iteration's sensor part: publish only when
`last_reed_state != current_state`, then record the new state. -/
def blynkSensorStep (last_reed_state : Option Bool) (current_state : Bool) :
    Option Bool × List Bool :=
  if last_reed_state ≠ some current_state then (some current_state, [current_state])
  else (last_reed_state, [])

/-- Run the v2.7 change-only publisher over a trace of raw readings. -/
def blynkSensorRun (last : Option Bool) : List Bool → Option Bool × List Bool
  | [] => (last, [])
  | cur :: rest =>
      let p := blynkSensorStep last cur
      let r := blynkSensorRun p.1 rest
      (r.1, p.2 ++ r.2)

/-! ### ScheduleEngine: `schedule_loop` (src/main.py lines 117-135) -/

/-- An ActuationRequest issued by the schedule loop. -/
inductive Req where
  | openReq
  | closeReq
  deriving DecidableEq, Repr

/-- The requests issued by one iteration of `schedule_loop`, given the
time-of-day `hm` read at the top of the iteration and the two separate
`is_gate_open()` readings (`gate1` at the open check, `gate2` at the close
check — the door can move between them when the open branch fired, since a
pulse plus a 60 s sleep intervene; the stale `hm` is reused for the close
check). -/
def scheduleTick (schedule_enabled : Bool) (OPEN_TIME CLOSE_TIME : Nat × Nat)
    (hm : Nat × Nat) (gate1 gate2 : Bool) : List Req :=
  if !schedule_enabled then []
  else
    (if hm = OPEN_TIME ∧ ¬gate1 then [Req.openReq] else []) ++
    (if hm = CLOSE_TIME ∧ gate2 then [Req.closeReq] else [])

/-- Environment of the timed schedule loop: the wall clock mapped to local
time-of-day, the door sensor as a function of absolute time, and the loaded
policy. -/
structure SchedEnv where
  hm : Nat → Nat × Nat
  doorAt : Nat → Bool
  OPEN_TIME : Nat × Nat
  CLOSE_TIME : Nat × Nat
  RELAY_DURATION : Nat
  schedule_enabled : Bool

/-- The open branch of one `schedule_loop` iteration read at absolute second
`t`: when the time-of-day matches `OPEN_TIME` and the gate is not open, the
loop fires (timestamp `t`) and suspends through the `RELAY_DURATION` pulse
plus the 60 s sleep; otherwise time does not advance. -/
def schedOpenCheck (env : SchedEnv) (t : Nat) : Nat × List Nat :=
  if env.hm t = env.OPEN_TIME ∧ ¬env.doorAt t then
    (t + env.RELAY_DURATION + 60, [t])
  else (t, [])

/-- The close branch, evaluated after the open branch with the STALE
time-of-day `env.hm t` read at the top of the iteration but a fresh
`is_gate_open()` reading at the then-current clock `s1.1`. -/
def schedCloseCheck (env : SchedEnv) (t : Nat) (s1 : Nat × List Nat) :
    Nat × List Nat :=
  if env.hm t = env.CLOSE_TIME ∧ env.doorAt s1.1 then
    (s1.1 + env.RELAY_DURATION + 60, s1.2 ++ [s1.1])
  else s1

/-- One timed iteration of `schedule_loop` starting at absolute second `t`:
the disabled branch just sleeps 1 s; otherwise both branches run and the
iteration ends with `asyncio.sleep(1)`. Returns the start time of the next
iteration and the list of firing timestamps. -/
def schedIter (env : SchedEnv) (t : Nat) : Nat × List Nat :=
  if env.schedule_enabled then
    ((schedCloseCheck env t (schedOpenCheck env t)).1 + 1,
     (schedCloseCheck env t (schedOpenCheck env t)).2)
  else (t + 1, [])

/-- Run `n` iterations of the schedule loop from absolute time `t`,
collecting firing timestamps in order. -/
def schedRun (env : SchedEnv) : Nat → Nat → Nat × List Nat
  | 0, t => (t, [])
  | n + 1, t =>
      let it := schedIter env t
      let r := schedRun env n it.1
      (r.1, it.2 ++ r.2)

/-! ### Config file: `load_schedule` / `save_schedule` (src/main.py lines
39-66).  The JSON values the five keys can hold. -/

inductive JVal where
  | jnull
  | jbool (b : Bool)
  | jnum (n : Int)
  | jfloat (q : ℚ)
  | jstr (s : String)
  | jarr (xs : List JVal)

/-- Python's `int()` on the exact value of a float: truncation toward zero
(`int(2.5) = 2`, `int(-2.5) = -2`). Every binary float is an exact rational,
so the float's value is carried as `ℚ`; float rounding itself is outside the
model. -/
def pyTrunc (q : ℚ) : Int := q.num.tdiv (q.den : Int)

/-- A Python number (the spec types `relay_duration` as `number`): an `int`
or a `float` carried by its exact rational value. -/
inductive PyNum where
  | pint (n : Int)
  | pfloat (q : ℚ)

/-- Python's `int()` applied to a number: identity on ints, truncation
toward zero on floats. -/
def pyIntOfNum : PyNum → Int
  | .pint n => n
  | .pfloat q => pyTrunc q

/-- The Python float `2.5` (exactly representable), as a raw rational so its
numerator and denominator reduce definitionally. -/
def twoPointFive : ℚ := ⟨5, 2, by norm_num, by norm_num⟩

/-- Python `data.get(k, dflt)` on a parsed JSON object. -/
def dictGet (data : List (String × JVal)) (k : String) (dflt : JVal) : JVal :=
  match data.find? (fun p => p.1 == k) with
  | some p => p.2
  | none => dflt

/-- Key-presence test `k in data` as a Bool. -/
def hasKey (data : List (String × JVal)) (k : String) : Bool :=
  data.any (fun p => p.1 == k)

/-- Python `tuple(v)`: succeeds on iterables (lists, strings — a string
iterates into one-character strings), raises `TypeError` (→ `none`) on
numbers (int or float), booleans and `None`. -/
def pyTuple : JVal → Option (List JVal)
  | .jarr xs => some xs
  | .jstr s => some (s.toList.map fun c => JVal.jstr (String.mk [c]))
  | _ => none

/-- Python `int(v)`: identity on ints, truncation toward zero on floats,
0/1 on bools, decimal parse on strings (whitespace stripped; a non-numeric
string raises → `none`), raises on lists and `None`. -/
def pyInt : JVal → Option Int
  | .jnum n => some n
  | .jfloat q => some (pyTrunc q)
  | .jbool b => some (if b then 1 else 0)
  | .jstr s => s.trim.toInt?
  | _ => none

/-- The observable result of `load_schedule`: the returned triple
(`open_time`, `close_time`, `melbourne`) plus the final values of the
mutated globals `RELAY_DURATION` and `schedule_enabled`. -/
structure LoadResult where
  open_time : List JVal
  close_time : List JVal
  melbourne : JVal
  RELAY_DURATION : Int
  schedule_enabled : JVal

/-- Model of `load_schedule` (src/main.py lines 39-51). `file` is `none` when the
settings file is missing or is not parseable JSON (then `json.load`/`open`
raises). Any exception inside the `try` lands in the `except` arm, which
returns `(8,0), (18,0), True` and leaves the globals `RELAY_DURATION` and
`schedule_enabled` at their prior values `rd0`, `se0`; note an exception at
the `int(...)` call happens before the assignment to `RELAY_DURATION`, so no
partial global mutation is ever visible. -/
def load_schedule (file : Option (List (String × JVal))) (rd0 : Int)
    (se0 : JVal) : LoadResult :=
  let fallback : LoadResult :=
    ⟨[JVal.jnum 8, JVal.jnum 0], [JVal.jnum 18, JVal.jnum 0], JVal.jbool true,
     rd0, se0⟩
  match file with
  | none => fallback
  | some data =>
    match pyTuple (dictGet data "open_time" (.jarr [.jnum 8, .jnum 0])) with
    | none => fallback
    | some open_time =>
      match pyTuple (dictGet data "close_time" (.jarr [.jnum 18, .jnum 0])) with
      | none => fallback
      | some close_time =>
        match pyInt (dictGet data "relay_duration" (.jnum rd0)) with
        | none => fallback
        | some rd =>
          ⟨open_time, close_time, dictGet data "melbourne_offset" (.jbool true),
           rd, dictGet data "schedule_enabled" (.jbool true)⟩

/-- Model of `save_schedule` (src/main.py lines 53-66): the JSON object written to the
settings file. `open_time`/`close_time` are (hour, minute) tuples,
`relay_duration` is a Python number written as `int(relay_duration)`
(truncating a float duration toward zero), `bool(melbourne)` is applied, and
the `schedule_enabled` key gets the current global's raw value `se0`. -/
def save_schedule (open_time close_time : Nat × Nat) (relay_duration : PyNum)
    (melbourne : Bool) (se0 : JVal) : List (String × JVal) :=
  [("open_time", .jarr [.jnum (open_time.1 : Int), .jnum (open_time.2 : Int)]),
   ("close_time", .jarr [.jnum (close_time.1 : Int), .jnum (close_time.2 : Int)]),
   ("relay_duration", .jnum (pyIntOfNum relay_duration)),
   ("melbourne_offset", .jbool melbourne),
   ("schedule_enabled", se0)]

/-! ## Helper lemmas -/

/-- Folding watchdog events that contain no successful pump and no successful
reconnect leaves `blynk_last_seen` untouched. -/
theorem wd_foldl_last_seen (evs : List WdEv) (s : WdState)
    (h : ∀ t : Int, WdEv.pumpOk t ∉ evs ∧ WdEv.reconnectOk t ∉ evs) :
    (evs.foldl wdStep s).blynk_last_seen = s.blynk_last_seen := by
  induction evs generalizing s with
  | nil => rfl
  | cons e rest ih =>
    have hrest : ∀ t : Int, WdEv.pumpOk t ∉ rest ∧ WdEv.reconnectOk t ∉ rest := by
      intro t
      exact ⟨fun hm => ((h t).1 (List.mem_cons_of_mem _ hm)),
             fun hm => ((h t).2 (List.mem_cons_of_mem _ hm))⟩
    cases e with
    | pumpOk t => exact absurd (List.mem_cons_self _ _) ((h t).1)
    | reconnectOk t => exact absurd (List.mem_cons_self _ _) ((h t).2)
    | check t =>
      simp only [List.foldl_cons, wdStep]
      split <;> exact ih _ hrest

/-- Once `machine.reset()` has fired, the `restarted` flag stays set. -/
theorem wd_foldl_restarted_mono (evs : List WdEv) (s : WdState)
    (h : s.restarted = true) : (evs.foldl wdStep s).restarted = true := by
  induction evs generalizing s with
  | nil => exact h
  | cons e rest ih =>
    cases e with
    | pumpOk t => exact ih _ h
    | reconnectOk t => exact ih _ h
    | check t =>
      simp only [List.foldl_cons, wdStep]
      split
      · exact ih _ rfl
      · exact ih _ h

/-- With no pump or reconnect success in the stream, any check that finds the
(unchanged) timestamp stale sets the restarted flag. -/
theorem wd_foldl_check_restarts (evs : List WdEv) (s : WdState)
    (hq : ∀ t : Int, WdEv.pumpOk t ∉ evs ∧ WdEv.reconnectOk t ∉ evs)
    (t : Int) (hmem : WdEv.check t ∈ evs)
    (hstale : t - s.blynk_last_seen > BLINK_OFFLINE_TIMEOUT) :
    (evs.foldl wdStep s).restarted = true := by
  induction evs generalizing s with
  | nil => cases hmem
  | cons e rest ih =>
    have hrest : ∀ u : Int, WdEv.pumpOk u ∉ rest ∧ WdEv.reconnectOk u ∉ rest := by
      intro u
      exact ⟨fun hm => ((hq u).1 (List.mem_cons_of_mem _ hm)),
             fun hm => ((hq u).2 (List.mem_cons_of_mem _ hm))⟩
    cases e with
    | pumpOk u => exact absurd (List.mem_cons_self _ _) ((hq u).1)
    | reconnectOk u => exact absurd (List.mem_cons_self _ _) ((hq u).2)
    | check u =>
      rcases List.mem_cons.mp hmem with heq | hmem'
      · cases heq
        simp only [List.foldl_cons, wdStep, watchdogRestart, decide_eq_true_eq]
        rw [if_pos hstale]
        exact wd_foldl_restarted_mono _ _ rfl
      · simp only [List.foldl_cons, wdStep]
        split <;> exact ih _ hrest hmem' hstale

/-- Accepted sensor changes are spaced more than `DEBOUNCE_MS` apart: the
emitted event stream is strictly increasing in time with gaps above the
window, and every event lies beyond the window measured from the state's
`last_change_time`. -/
theorem reedRun_spacing (trace : List (Bool × Nat)) :
    ∀ s : ReedState,
      List.Chain' (fun a b : Bool × Nat => a.2 + DEBOUNCE_MS < b.2)
        (reedRun s trace).2 ∧
      ∀ e ∈ (reedRun s trace).2, s.last_change_time + DEBOUNCE_MS < e.2 := by
  induction trace with
  | nil =>
    intro s
    exact ⟨List.chain'_nil, fun e he => absurd he (List.not_mem_nil e)⟩
  | cons p rest ih =>
    intro s
    obtain ⟨state, now⟩ := p
    by_cases hacc : reedAccept s state now = true
    · have hlt : s.last_change_time + DEBOUNCE_MS < now := by
        unfold reedAccept at hacc
        simp only [Bool.and_eq_true, decide_eq_true_eq] at hacc
        omega
      have h2 := ih ⟨some state, now⟩
      have hrun : (reedRun s ((state, now) :: rest)).2 =
          (state, now) :: (reedRun ⟨some state, now⟩ rest).2 := by
        simp [reedRun, reedPoll, hacc]
      rw [hrun]
      constructor
      · rw [List.chain'_cons']
        refine ⟨?_, h2.1⟩
        intro y hy
        exact h2.2 y (List.mem_of_mem_head? hy)
      · intro e he
        rcases List.mem_cons.mp he with heq | hmem
        · rw [heq]
          exact hlt
        · have h3 : now + DEBOUNCE_MS < e.2 := h2.2 e hmem
          omega
    · have hrun : reedRun s ((state, now) :: rest) = reedRun s rest := by
        simp only [Bool.not_eq_true] at hacc
        simp [reedRun, reedPoll, hacc]
      rw [hrun]
      exact ih s

/-- Accepted sensor changes strictly alternate: each emitted event's state
differs from the previous debounced state. -/
theorem reedRun_alternation (trace : List (Bool × Nat)) :
    ∀ s : ReedState,
      List.Chain' (fun a b : Bool × Nat => a.1 ≠ b.1) (reedRun s trace).2 ∧
      ∀ e ∈ (reedRun s trace).2.head?, some e.1 ≠ s.last_state := by
  induction trace with
  | nil =>
    intro s
    exact ⟨List.chain'_nil, by simp [reedRun]⟩
  | cons p rest ih =>
    intro s
    obtain ⟨state, now⟩ := p
    by_cases hacc : reedAccept s state now = true
    · have hne : some state ≠ s.last_state := by
        unfold reedAccept at hacc
        simp only [Bool.and_eq_true, decide_eq_true_eq] at hacc
        exact hacc.1
      have h2 := ih ⟨some state, now⟩
      have hrun : (reedRun s ((state, now) :: rest)).2 =
          (state, now) :: (reedRun ⟨some state, now⟩ rest).2 := by
        simp [reedRun, reedPoll, hacc]
      rw [hrun]
      constructor
      · rw [List.chain'_cons']
        refine ⟨?_, h2.1⟩
        intro y hy
        have hne2 := h2.2 y hy
        intro hcontra
        exact hne2 (congrArg some hcontra.symm)
      · intro e he
        simp only [List.head?_cons, Option.mem_def, Option.some.injEq] at he
        rw [← he]
        exact hne
    · have hrun : reedRun s ((state, now) :: rest) = reedRun s rest := by
        simp only [Bool.not_eq_true] at hacc
        simp [reedRun, reedPoll, hacc]
      rw [hrun]
      exact ih s

/-- The v2.7 change-only publisher strictly alternates as well. -/
theorem blynkSensorRun_alternation (raws : List Bool) :
    ∀ last : Option Bool,
      List.Chain' (fun a b : Bool => a ≠ b) (blynkSensorRun last raws).2 ∧
      ∀ e ∈ (blynkSensorRun last raws).2.head?, some e ≠ last := by
  induction raws with
  | nil =>
    intro last
    exact ⟨List.chain'_nil, by simp [blynkSensorRun]⟩
  | cons cur rest ih =>
    intro last
    by_cases hch : last ≠ some cur
    · have h2 := ih (some cur)
      have hrun : (blynkSensorRun last (cur :: rest)).2 =
          cur :: (blynkSensorRun (some cur) rest).2 := by
        simp [blynkSensorRun, blynkSensorStep, hch]
      rw [hrun]
      constructor
      · rw [List.chain'_cons']
        refine ⟨?_, h2.1⟩
        intro y hy
        have hne2 := h2.2 y hy
        intro hcontra
        exact hne2 (congrArg some hcontra.symm)
      · intro e he
        simp only [List.head?_cons, Option.mem_def, Option.some.injEq] at he
        rw [← he]
        exact fun hc => hch hc.symm
    · have hrun : blynkSensorRun last (cur :: rest) = blynkSensorRun last rest := by
        simp only [ne_eq, not_not] at hch
        simp [blynkSensorRun, blynkSensorStep, hch]
      rw [hrun]
      exact ih last

/-- The actuator invariant holds at boot. -/
theorem gateInv_init : GateInv gateInit := by
  refine ⟨rfl, rfl, ?_⟩
  intro d hd
  cases hd

/-- One runtime step preserves the actuator invariant (needs a positive pulse
duration so a freshly scheduled completion deadline lies in the future). -/
theorem gateStep_preserves_inv (dur : Nat) (b : Bool) (hdur : 0 < dur)
    (s : GateSys) (h : GateInv s) (a : GateAct) :
    GateInv (gateStep dur b s a) := by
  obtain ⟨hrel, hlen, hfut⟩ := h
  cases a with
  | trigger =>
    by_cases hact : s.relay_active = true
    · simpa [gateStep, triggerStart, hact] using ⟨hrel, hlen, hfut⟩
    · have hact' : s.relay_active = false := by
        cases hs : s.relay_active
        · rfl
        · exact absurd hs hact
      have hnil : s.pending = [] := by
        rw [hact'] at hlen
        exact List.length_eq_zero.mp hlen
      have hres : gateStep dur b s .trigger =
          { s with
            relay := true,
            relay_active := true,
            led := true,
            pending := [s.now + dur],
            log := s.log ++ (if b then [CloudMsg.vw 13 1] else []) } := by
        simp [gateStep, triggerStart, hact', hnil]
      rw [hres]
      refine ⟨rfl, rfl, ?_⟩
      intro d hd
      simp only [List.mem_singleton] at hd
      subst hd
      simp only []
      omega
  | tick =>
    cases hact : s.relay_active with
    | false =>
      have hnil : s.pending = [] := by
        rw [hact] at hlen
        exact List.length_eq_zero.mp hlen
      rw [hact] at hrel
      refine ⟨?_, ?_, ?_⟩ <;> simp [gateStep, hnil, hrel, hact]
    | true =>
      rw [hact] at hlen
      obtain ⟨d, hd⟩ := List.length_eq_one.mp hlen
      rw [hact] at hrel
      by_cases hdue : d ≤ s.now + 1
      · refine ⟨?_, ?_, ?_⟩ <;>
          simp [gateStep, hd, hdue, triggerFinish]
      · have hfut' : s.now + 1 < d := by omega
        refine ⟨?_, ?_, ?_⟩ <;>
          simp [gateStep, hd, hdue, hrel, hact, hfut']

/-- The actuator invariant holds after any action sequence from boot. -/
theorem gateRun_inv (dur : Nat) (b : Bool) (hdur : 0 < dur)
    (acts : List GateAct) : GateInv (gateRun dur b acts) := by
  suffices hstep : ∀ s, GateInv s → GateInv (acts.foldl (gateStep dur b) s) by
    exact hstep gateInit gateInv_init
  induction acts with
  | nil => exact fun s hs => hs
  | cons a rest ih =>
    intro s hs
    exact ih _ (gateStep_preserves_inv dur b hdur s hs a)

/-! ## Claim theorems -/

/-- C2: for every interleaving of `trigger_gate()` calls and elapsing time,
at most one actuator pulse is ever in flight; every pulse that is still in
flight has a completion deadline strictly in the future (so no pulse misses
its resumption: once its duration has elapsed it has completed); and when no
pulse is in flight the relay is deasserted and `relay_active` is false — a
started pulse therefore always ends with the relay released, regardless of
what the triggering caller does afterwards. -/
theorem at_most_one_pulse_and_completion (dur : Nat) (b : Bool)
    (hdur : 0 < dur) (acts : List GateAct) :
    (gateRun dur b acts).pending.length ≤ 1 ∧
    (∀ d ∈ (gateRun dur b acts).pending, (gateRun dur b acts).now < d) ∧
    ((gateRun dur b acts).pending = [] →
      (gateRun dur b acts).relay = false ∧
      (gateRun dur b acts).relay_active = false) := by
  obtain ⟨hrel, hlen, hfut⟩ := gateRun_inv dur b hdur acts
  refine ⟨?_, hfut, ?_⟩
  · rw [hlen]
    split <;> omega
  · intro hnil
    rw [hnil] at hlen
    simp only [List.length_nil] at hlen
    have hact : (gateRun dur b acts).relay_active = false := by
      by_contra hc
      rw [Bool.not_eq_false] at hc
      rw [hc] at hlen
      simp at hlen
    exact ⟨hrel.trans hact, hact⟩

theorem at_most_one_pulse_and_completion_witness :
    (gateRun 1 true [GateAct.trigger, GateAct.trigger, GateAct.tick]).pending.length ≤ 1 ∧
    (gateRun 1 true [GateAct.trigger, GateAct.trigger, GateAct.tick]).relay = false :=
  ⟨(at_most_one_pulse_and_completion 1 true (by decide)
      [GateAct.trigger, GateAct.trigger, GateAct.tick]).1,
   ((at_most_one_pulse_and_completion 1 true (by decide)
      [GateAct.trigger, GateAct.trigger, GateAct.tick]).2.2 (by rfl)).1⟩

/-- C1: a `trigger_gate` call made while `relay_active` is true returns
immediately with no state mutation at all — the relay output, `relay_active`,
the LED, the in-flight pulse set and the cloud message log are all unchanged
(the whole `GateSys` state is returned as-is), and the call is not accepted,
so no physical pulse occurs for it. -/
theorem trigger_while_active_is_noop (RELAY_DURATION : Nat)
    (blynkPresent : Bool) (s : GateSys) (h : s.relay_active = true) :
    triggerStart RELAY_DURATION blynkPresent s = (s, false) := by
  simp [triggerStart, h]

theorem trigger_while_active_is_noop_witness :
    (gateInit.relay_active = true → False) ∧
    triggerStart 1 true
      { gateInit with relay := true, relay_active := true, led := true } =
      ({ gateInit with relay := true, relay_active := true, led := true },
       false) :=
  ⟨fun h => by simp [gateInit] at h,
   trigger_while_active_is_noop 1 true _ rfl⟩

/-- C3: one watchdog check restarts the device exactly when
`time.time() - blynk_last_seen` strictly exceeds the 300 s timeout; while
contact is fresh (difference at most the timeout) no restart happens, and in
particular a check right after boot against the boot-seeded timestamp does
not restart. -/
theorem watchdog_restart_iff_stale (now last bootTime t : Int) :
    (watchdogRestart now last = true ↔ now - last > BLINK_OFFLINE_TIMEOUT) ∧
    (now - last ≤ BLINK_OFFLINE_TIMEOUT → watchdogRestart now last = false) ∧
    (t - bootTime ≤ BLINK_OFFLINE_TIMEOUT →
      (wdRun bootTime [WdEv.check t]).restarted = false) := by
  refine ⟨by simp [watchdogRestart], ?_, ?_⟩
  · intro h
    simp [watchdogRestart]
    omega
  · intro h
    simp only [wdRun, List.foldl_cons, List.foldl_nil, wdStep, watchdogRestart]
    rw [if_neg (by simp; omega)]

theorem watchdog_restart_iff_stale_witness :
    watchdogRestart 1000 999 = false ∧ watchdogRestart 1301 1000 = true ∧
    (wdRun 1000 [WdEv.check 1010]).restarted = false :=
  ⟨(watchdog_restart_iff_stale 1000 999 0 0).2.1 (by decide),
   (watchdog_restart_iff_stale 1301 1000 0 0).1.mpr (by decide),
   (watchdog_restart_iff_stale 0 0 1000 1010).2.2 (by decide)⟩

/-- C10: if no protocol pump and no inline reconnect ever succeeds after
boot, `blynk_last_seen` keeps its boot-time seed forever, and a watchdog
check more than 300 s after boot restarts the device — a cloud session need
never have existed for the escalation to fire. -/
theorem never_reachable_restarts (bootTime : Int) (evs : List WdEv)
    (hq : ∀ t : Int, WdEv.pumpOk t ∉ evs ∧ WdEv.reconnectOk t ∉ evs) :
    (wdRun bootTime evs).blynk_last_seen = bootTime ∧
    (∀ t : Int, WdEv.check t ∈ evs → t - bootTime > BLINK_OFFLINE_TIMEOUT →
      (wdRun bootTime evs).restarted = true) := by
  constructor
  · exact wd_foldl_last_seen evs _ hq
  · intro t hmem hstale
    exact wd_foldl_check_restarts evs _ hq t hmem hstale

theorem never_reachable_restarts_witness :
    (wdRun 0 [WdEv.check 100, WdEv.check 310]).blynk_last_seen = 0 ∧
    (wdRun 0 [WdEv.check 100, WdEv.check 310]).restarted = true := by
  have h := never_reachable_restarts 0 [WdEv.check 100, WdEv.check 310]
    (by intro t; refine ⟨?_, ?_⟩ <;> simp)
  exact ⟨h.1, h.2 310 (by simp) (by decide)⟩

/-- Poll trace for the debounce counterexample: the loop polls every 50 ms;
the raw reading settles to false, then makes a single false→true→false
excursion — true at the 600 ms poll and back to false by the 650 ms poll, so
the bounce lasts under 50 ms, far within one 250 ms debounce window. -/
def glitchTrace : List (Bool × Nat) :=
  [(false, 300), (false, 350), (false, 400), (false, 450), (false, 500),
   (false, 550), (true, 600), (false, 650), (false, 700), (false, 750),
   (false, 800), (false, 850), (false, 900)]

/-- C4 counterexample: on `glitchTrace` the single sub-window
false→true→false bounce starting at 600 ms produces TWO SensorEvents, not at
most one — `(true, 600)` immediately and a catch-up `(false, 900)` once the
window has expired, because acceptance compares levels against the debounced
state rather than suppressing the bounce. -/
theorem reed_glitch_emits_two_events :
    (reedRun reedInit glitchTrace).2 = [(false, 300), (true, 600), (false, 900)] ∧
    ¬ ((((reedRun reedInit glitchTrace).2.filter
        (fun e => decide (600 ≤ e.2))).length) ≤ 1) := by
  decide

/-- C4 (amended): a SensorEvent is emitted on a poll exactly when the raw
state differs from the last debounced state AND strictly more than
`DEBOUNCE_MS` have elapsed since the last accepted change (confirmed as
stated); consequently consecutive emitted events are always separated by more
than `DEBOUNCE_MS`, so at most one event is emitted within any one debounce
window — but a false→true→false excursion shorter than the window yields one
event per transition (the second deferred past the window), not at most one
event overall. -/
theorem reed_emission_condition_and_spacing :
    (∀ s state now, (reedPoll s state now).2 ≠ [] ↔
      (some state ≠ s.last_state ∧ DEBOUNCE_MS < now - s.last_change_time)) ∧
    (∀ trace, List.Chain' (fun a b : Bool × Nat => a.2 + DEBOUNCE_MS < b.2)
      (reedRun reedInit trace).2) := by
  constructor
  · intro s state now
    by_cases h1 : some state = s.last_state <;>
      by_cases h2 : DEBOUNCE_MS < now - s.last_change_time <;>
        simp [reedPoll, reedAccept, h1, h2]
  · intro trace
    exact (reedRun_spacing trace reedInit).1

theorem reed_emission_condition_and_spacing_witness :
    (reedPoll reedInit true 300).2 ≠ [] ∧
    List.Chain' (fun a b : Bool × Nat => a.2 + DEBOUNCE_MS < b.2)
      (reedRun reedInit [(true, 300), (false, 400), (false, 600)]).2 :=
  ⟨(reed_emission_condition_and_spacing.1 reedInit true 300).mpr
      (by constructor <;> decide),
   reed_emission_condition_and_spacing.2 [(true, 300), (false, 400), (false, 600)]⟩

/-- C5: sensor-state publishing is change-only in both variants. In
`reed_status_loop` (v2.4p) the emitted SensorEvent stream strictly alternates
in state — no two events for the same state without an intervening
opposite-state event — and in the v2.7 `blynk_update_loop` the outbound
`virtual_write(14, _)`/`log_event` stream likewise alternates, so publishing
the same sensor state twice in a row yields at most one outbound update. -/
theorem sensor_publish_change_only :
    (∀ trace, List.Chain' (fun a b : Bool × Nat => a.1 ≠ b.1)
      (reedRun reedInit trace).2) ∧
    (∀ raws : List Bool, List.Chain' (fun a b : Bool => a ≠ b)
      (blynkSensorRun none raws).2) := by
  constructor
  · intro trace
    exact (reedRun_alternation trace reedInit).1
  · intro raws
    exact (blynkSensorRun_alternation raws none).1

/-- Well-spaced partial-iteration result: the clock has not gone backwards,
the firings so far are 60 s-separated, and each firing lies ≥ 60 s before the
current clock. -/
def SpacedOk (t : Nat) (s : Nat × List Nat) : Prop :=
  t ≤ s.1 ∧
  List.Chain' (fun a b : Nat => a + 60 ≤ b) s.2 ∧
  ∀ e ∈ s.2, t ≤ e ∧ e + 60 ≤ s.1

/-- The open branch yields a well-spaced result. -/
theorem schedOpenCheck_ok (env : SchedEnv) (t : Nat) :
    SpacedOk t (schedOpenCheck env t) := by
  by_cases hc : env.hm t = env.OPEN_TIME ∧ ¬env.doorAt t = true
  · have hres : schedOpenCheck env t = (t + env.RELAY_DURATION + 60, [t]) := by
      simp [schedOpenCheck, hc]
    rw [hres]
    refine ⟨by omega, List.chain'_singleton _, ?_⟩
    intro e he
    simp only [List.mem_singleton] at he
    subst he
    omega
  · have hres : schedOpenCheck env t = (t, []) := by
      simp only [schedOpenCheck, if_neg hc]
    rw [hres]
    exact ⟨Nat.le_refl t, List.chain'_nil, fun e he => absurd he (List.not_mem_nil e)⟩

/-- The close branch preserves well-spacedness. -/
theorem schedCloseCheck_ok (env : SchedEnv) (t : Nat) (s1 : Nat × List Nat)
    (h : SpacedOk t s1) : SpacedOk t (schedCloseCheck env t s1) := by
  obtain ⟨ht, hchain, hbound⟩ := h
  by_cases hc : env.hm t = env.CLOSE_TIME ∧ env.doorAt s1.1 = true
  · have hres : schedCloseCheck env t s1 =
        (s1.1 + env.RELAY_DURATION + 60, s1.2 ++ [s1.1]) := by
      simp [schedCloseCheck, hc]
    rw [hres]
    refine ⟨by omega, ?_, ?_⟩
    · refine List.Chain'.append hchain (List.chain'_singleton _) ?_
      intro x hx y hy
      simp only [List.head?_cons, Option.mem_def, Option.some.injEq] at hy
      subst hy
      exact (hbound x (List.mem_of_mem_getLast? hx)).2
    · intro e he
      rcases List.mem_append.mp he with hm | hm
      · have := hbound e hm
        omega
      · simp only [List.mem_singleton] at hm
        subst hm
        omega
  · have hres : schedCloseCheck env t s1 = s1 := by
      simp only [schedCloseCheck, if_neg hc]
    rw [hres]
    exact ⟨ht, hchain, hbound⟩

/-- Per-iteration schedule facts: the loop clock strictly advances, the
firings of one iteration are 60 s-separated, and every firing lies more than
60 s before the next iteration starts. -/
theorem schedIter_events (env : SchedEnv) (t : Nat) :
    t < (schedIter env t).1 ∧
    List.Chain' (fun a b : Nat => a + 60 ≤ b) (schedIter env t).2 ∧
    ∀ e ∈ (schedIter env t).2, t ≤ e ∧ e + 60 < (schedIter env t).1 := by
  by_cases henb : env.schedule_enabled = true
  · have hok := schedCloseCheck_ok env t _ (schedOpenCheck_ok env t)
    obtain ⟨ht, hchain, hbound⟩ := hok
    have hres : schedIter env t =
        ((schedCloseCheck env t (schedOpenCheck env t)).1 + 1,
         (schedCloseCheck env t (schedOpenCheck env t)).2) := by
      simp only [schedIter, if_pos henb]
    rw [hres]
    refine ⟨by omega, hchain, ?_⟩
    intro e he
    have := hbound e he
    omega
  · have hres : schedIter env t = (t + 1, []) := by
      simp only [schedIter, if_neg henb]
    rw [hres]
    exact ⟨by omega, List.chain'_nil, fun e he => absurd he (List.not_mem_nil e)⟩

/-- Every firing of a schedule run happens at or after the run's start time,
and the clock never goes backwards. -/
theorem schedRun_lower_bound (env : SchedEnv) :
    ∀ (n t : Nat), (∀ e ∈ (schedRun env n t).2, t ≤ e) ∧ t ≤ (schedRun env n t).1 := by
  intro n
  induction n with
  | zero => intro t; exact ⟨fun e he => absurd he (List.not_mem_nil e), Nat.le_refl t⟩
  | succ m ih =>
    intro t
    obtain ⟨hadv, _, hbound⟩ := schedIter_events env t
    have hrest := ih (schedIter env t).1
    constructor
    · intro e he
      simp only [schedRun] at he
      rcases List.mem_append.mp he with h | h
      · exact (hbound e h).1
      · exact le_trans (le_of_lt hadv) (hrest.1 e h)
    · simp only [schedRun]
      exact le_trans (le_of_lt hadv) hrest.2

/-- C7: across any number of schedule-loop iterations, consecutive actuation
firings are at least 60 time units apart — after a firing the loop sleeps
through the pulse plus 60 s before it can fire again, so no second actuation
is issued during the 60 units following a firing even while the local clock
still reads the matching minute. -/
theorem schedule_no_refire_within_60 (env : SchedEnv) (n t0 : Nat) :
    List.Chain' (fun a b : Nat => a + 60 ≤ b) (schedRun env n t0).2 := by
  induction n generalizing t0 with
  | zero => exact List.chain'_nil
  | succ m ih =>
    obtain ⟨hadv, hchain, hbound⟩ := schedIter_events env t0
    simp only [schedRun]
    refine List.Chain'.append hchain (ih (schedIter env t0).1) ?_
    intro x hx y hy
    have hx' := (hbound x (List.mem_of_mem_getLast? hx)).2
    have hy' := (schedRun_lower_bound env m (schedIter env t0).1).1 y
      (List.mem_of_mem_head? hy)
    omega

/-- C6 counterexample: with `OPEN_TIME = CLOSE_TIME = (8,0)` (a loadable
configuration), a tick at local time 08:00 with the door open issues a close
ActuationRequest — not the zero requests the claim asserts for a tick whose
time equals `openTime` while the door is already open. -/
theorem schedule_same_time_fires_close :
    scheduleTick true (8, 0) (8, 0) (8, 0) true true = [Req.closeReq] ∧
    scheduleTick true (8, 0) (8, 0) (8, 0) true true ≠ [] := by
  decide

/-- C6 (amended): on a tick with scheduling enabled and `OPEN_TIME ≠
CLOSE_TIME`, a tick at `OPEN_TIME` with the door not open issues exactly one
open request; at `OPEN_TIME` with the door open it issues zero requests; and
symmetrically at `CLOSE_TIME` with the door open exactly one close request,
with the door closed zero. (When the two configured times coincide, the claim
fails — see the counterexample.) -/
theorem schedule_fire_counts (OPEN_TIME CLOSE_TIME hm : Nat × Nat)
    (g1 g2 : Bool) (hne : OPEN_TIME ≠ CLOSE_TIME) :
    (hm = OPEN_TIME → scheduleTick true OPEN_TIME CLOSE_TIME hm false g2 = [Req.openReq]) ∧
    (hm = OPEN_TIME → scheduleTick true OPEN_TIME CLOSE_TIME hm true g2 = []) ∧
    (hm = CLOSE_TIME → scheduleTick true OPEN_TIME CLOSE_TIME hm g1 true = [Req.closeReq]) ∧
    (hm = CLOSE_TIME → scheduleTick true OPEN_TIME CLOSE_TIME hm g1 false = []) := by
  refine ⟨?_, ?_, ?_, ?_⟩ <;> intro heq <;> subst heq <;>
    simp [scheduleTick, hne, hne.symm]

theorem schedule_fire_counts_witness :
    scheduleTick true (8, 0) (18, 0) (8, 0) false true = [Req.openReq] ∧
    scheduleTick true (8, 0) (18, 0) (8, 0) true true = [] ∧
    scheduleTick true (8, 0) (18, 0) (18, 0) true true = [Req.closeReq] ∧
    scheduleTick true (8, 0) (18, 0) (18, 0) true false = [] :=
  ⟨(schedule_fire_counts (8, 0) (18, 0) (8, 0) true true (by decide)).1 rfl,
   (schedule_fire_counts (8, 0) (18, 0) (8, 0) true true (by decide)).2.1 rfl,
   (schedule_fire_counts (8, 0) (18, 0) (18, 0) true true (by decide)).2.2.1 rfl,
   (schedule_fire_counts (8, 0) (18, 0) (18, 0) true false (by decide)).2.2.2 rfl⟩

/-- Lookup `data.get(k, dflt)` returns the default when the key is absent. -/
theorem dictGet_absent (data : List (String × JVal)) (k : String) (dflt : JVal)
    (h : hasKey data k = false) : dictGet data k dflt = dflt := by
  unfold dictGet
  have hfind : data.find? (fun p => p.1 == k) = none := by
    rw [List.find?_eq_none]
    intro x hx
    simp only [hasKey, List.any_eq_false] at h
    exact h x hx
  rw [hfind]

/-- C8: `load_schedule` never escapes an error — every exception path lands
in the all-defaults fallback (totality is by construction of the model, every
internal raise returning the fallback). A missing or unparseable file yields
exactly the defaults `(8,0)`, `(18,0)`, melbourne `True`, with the globals
`RELAY_DURATION` and `schedule_enabled` keeping their existing values (at the
single boot-time call site these are `1` and `True`); and each individually
missing key defaults to `[8,0]`, `[18,0]`, the existing duration, `True` and
`True` respectively, whether or not some other key later aborts the parse. -/
theorem load_schedule_defaults :
    (∀ rd0 se0, load_schedule none rd0 se0 =
      ⟨[JVal.jnum 8, JVal.jnum 0], [JVal.jnum 18, JVal.jnum 0],
       JVal.jbool true, rd0, se0⟩) ∧
    (∀ data rd0 se0, hasKey data "open_time" = false →
      (load_schedule (some data) rd0 se0).open_time = [JVal.jnum 8, JVal.jnum 0]) ∧
    (∀ data rd0 se0, hasKey data "close_time" = false →
      (load_schedule (some data) rd0 se0).close_time = [JVal.jnum 18, JVal.jnum 0]) ∧
    (∀ data rd0 se0, hasKey data "relay_duration" = false →
      (load_schedule (some data) rd0 se0).RELAY_DURATION = rd0) ∧
    (∀ data rd0 se0, hasKey data "melbourne_offset" = false →
      (load_schedule (some data) rd0 se0).melbourne = JVal.jbool true) ∧
    (∀ data rd0, hasKey data "schedule_enabled" = false →
      (load_schedule (some data) rd0 (JVal.jbool true)).schedule_enabled =
        JVal.jbool true) := by
  refine ⟨fun rd0 se0 => rfl, ?_, ?_, ?_, ?_, ?_⟩
  · intro data rd0 se0 h
    unfold load_schedule
    dsimp only
    rw [dictGet_absent data "open_time" _ h]
    simp only [pyTuple]
    split
    · rfl
    · split <;> rfl
  · intro data rd0 se0 h
    unfold load_schedule
    dsimp only
    rw [dictGet_absent data "close_time" _ h]
    simp only [pyTuple]
    split
    · rfl
    · split <;> rfl
  · intro data rd0 se0 h
    unfold load_schedule
    dsimp only
    rw [dictGet_absent data "relay_duration" _ h]
    simp only [pyInt]
    split
    · rfl
    · split <;> rfl
  · intro data rd0 se0 h
    unfold load_schedule
    dsimp only
    rw [dictGet_absent data "melbourne_offset" _ h]
    split
    · rfl
    · split
      · rfl
      · split <;> rfl
  · intro data rd0 h
    unfold load_schedule
    dsimp only
    rw [dictGet_absent data "schedule_enabled" _ h]
    split
    · rfl
    · split
      · rfl
      · split <;> rfl

theorem load_schedule_defaults_witness :
    hasKey [] "open_time" = false ∧
    (load_schedule (some []) 1 (JVal.jbool true)).open_time =
      [JVal.jnum 8, JVal.jnum 0] ∧
    (load_schedule (some []) 1 (JVal.jbool true)).RELAY_DURATION = 1 ∧
    load_schedule none 1 (JVal.jbool true) =
      ⟨[JVal.jnum 8, JVal.jnum 0], [JVal.jnum 18, JVal.jnum 0],
       JVal.jbool true, 1, JVal.jbool true⟩ :=
  ⟨rfl,
   load_schedule_defaults.2.1 [] 1 (JVal.jbool true) rfl,
   load_schedule_defaults.2.2.2.1 [] 1 (JVal.jbool true) rfl,
   load_schedule_defaults.1 1 (JVal.jbool true)⟩

/-- C9 counterexample: the Python float `2.5` is a spec-valid pulse duration
(`relay_duration` is typed `number`, required only positive), yet it does not
round-trip: `save_schedule` writes `int(2.5) = 2` to the file, so the value
loaded back is `2`, not `2.5`. The three conjuncts: the loaded duration is 2;
the saved duration 2.5 is positive (spec-valid); and 2 ≠ 2.5. -/
theorem save_load_duration_truncated_cex :
    (load_schedule (some (save_schedule (8, 0) (18, 0)
        (PyNum.pfloat twoPointFive) true (JVal.jbool true)))
      1 JVal.jnull).RELAY_DURATION = 2 ∧
    0 < twoPointFive ∧
    ((2 : Int) : ℚ) ≠ twoPointFive := by
  refine ⟨rfl, ?_, ?_⟩
  · rw [← Rat.num_pos]
    decide
  · intro h
    have hd := congrArg Rat.den h
    rw [Rat.den_intCast] at hd
    exact absurd hd (by decide)

/-- C9 (amended): saving any schedule policy and loading it back reproduces
identical `open_time`, `close_time`, `melbourne_offset` and
`schedule_enabled` values, and reproduces the pulse duration passed through
Python's `int()` — so `relay_duration` round-trips identically exactly when
the duration is an integer (`pyIntOfNum` is the identity on ints); a float
duration comes back truncated toward zero. Holds for all prior global values
`rd0`, `se0'` at load time. -/
theorem save_load_roundtrip (oh om ch cm : Nat) (d : PyNum) (mel : Bool)
    (se0 : JVal) (rd0 : Int) (se0' : JVal) :
    load_schedule (some (save_schedule (oh, om) (ch, cm) d mel se0)) rd0 se0' =
      ⟨[JVal.jnum (oh : Int), JVal.jnum (om : Int)],
       [JVal.jnum (ch : Int), JVal.jnum (cm : Int)],
       JVal.jbool mel, pyIntOfNum d, se0⟩ ∧
    (∀ n : Int, pyIntOfNum (PyNum.pint n) = n) :=
  ⟨rfl, fun _ => rfl⟩

theorem save_load_roundtrip_witness :
    load_schedule (some (save_schedule (8, 0) (18, 0) (PyNum.pint 1) true
        (JVal.jbool true))) 5 JVal.jnull =
      ⟨[JVal.jnum 8, JVal.jnum 0], [JVal.jnum 18, JVal.jnum 0],
       JVal.jbool true, 1, JVal.jbool true⟩ :=
  (save_load_roundtrip 8 0 18 0 (PyNum.pint 1) true (JVal.jbool true)
    5 JVal.jnull).1

end GateCtl
